import Mathlib

/-!
# Verification of the Vehicle Booking System backend

Shallow embedding of `src/backend/server.js` (Express + Mongoose backend of
a motorbike booking system).  Instants (JS `Date` values) are modelled as
milliseconds-since-epoch integers; `new Date(s)` is modelled by an abstract
parameter `parse : String → Option Int` where `none` stands for an Invalid
Date (`isNaN(d.getTime())`).  The Mongo collection is modelled as a list of
bookings in natural (insertion) order; `findOne` is `List.find?`,
`findByIdAndUpdate` / `findByIdAndDelete` act on the first booking with the
given id, and `save` appends.
-/

namespace VBS

/-- A persisted booking document, mirroring `bookingSchema` in
`server.js` (lines 65–72): `name`, `purpose`, `bookingTime`, `returnTime`,
`status` (a plain string; the schema declares no enum, default `"pending"`),
`createdAt` (default `Date.now`), plus the server-assigned Mongo `_id`. -/
structure Booking where
  id : Nat
  name : String
  purpose : String
  bookingTime : Int
  returnTime : Int
  status : String
  createdAt : Int
  deriving Repr, DecidableEq

/-- Request body of `POST /api/bookings`.  The handler destructures only
`name`, `purpose`, `bookingTime`, `returnTime` (line 113); any other field
of the JSON body — in particular a client-supplied `status` — is carried
here to show it is ignored.  `none` models an absent field. -/
structure BookingRequest where
  name : Option String
  purpose : Option String
  bookingTime : Option String
  returnTime : Option String
  status : Option String
  deriving Repr, DecidableEq

/-- JS truthiness of an optional string field, as used by
`if (!name || !purpose || !bookingTime || !returnTime)` (line 118):
`undefined` and the empty string are falsy. -/
def truthy : Option String → Bool
  | none => false
  | some s => s ≠ ""

/-- Outcome of `POST /api/bookings`: the four 400 responses
(lines 118–155) and the 201 response with the created booking. -/
inductive CreateResult where
  | missingFields
  | invalidDate
  | invalidOrder
  | conflict (bookingTime returnTime : Int)
  | created (b : Booking)
  deriving Repr, DecidableEq

/-- The Mongo filter of the conflict query (lines 141–149):
`status: 'approved'`, `bookingTime: { $lte: returnDateTime }`,
`returnTime: { $gte: bookingDateTime }`. -/
def conflictsWith (c d : Int) (b : Booking) : Bool :=
  b.status == "approved" && decide (b.bookingTime ≤ d) && decide (b.returnTime ≥ c)

/-- The `POST /api/bookings` handler (lines 111–171) as a pure function:
given the date parser, the request body, the stored collection, the id the
store will assign and the current time, it returns the response and the
collection after the request.  Steps, in source order: required-field
truthiness check; date validity check; ordering check
(`bookingDateTime >= returnDateTime`); `findOne` conflict scan over
approved bookings; construction and `save` of the new booking (status and
`createdAt` from schema defaults). -/
def createBooking (parse : String → Option Int) (req : BookingRequest)
    (store : List Booking) (newId : Nat) (now : Int) :
    CreateResult × List Booking :=
  if truthy req.name && truthy req.purpose &&
      truthy req.bookingTime && truthy req.returnTime then
    match parse (req.bookingTime.getD ""), parse (req.returnTime.getD "") with
    | some bookingDateTime, some returnDateTime =>
      if bookingDateTime ≥ returnDateTime then
        (.invalidOrder, store)
      else
        match store.find? (conflictsWith bookingDateTime returnDateTime) with
        | some conflictingBooking =>
          (.conflict conflictingBooking.bookingTime conflictingBooking.returnTime,
           store)
        | none =>
          let booking : Booking :=
            { id := newId
              name := req.name.getD ""
              purpose := req.purpose.getD ""
              bookingTime := bookingDateTime
              returnTime := returnDateTime
              status := "pending"
              createdAt := now }
          (.created booking, store ++ [booking])
    | _, _ => (.invalidDate, store)
  else
    (.missingFields, store)

/-- Outcome of `PATCH /api/bookings/:id` (lines 174–197). -/
inductive PatchResult where
  | invalidStatus
  | notFound
  | ok (b : Booking)
  deriving Repr, DecidableEq

/-- `findByIdAndUpdate(id, { status }, { new: true })` on the modelled
collection: set the status of the first booking whose id matches, returning
the updated document and the updated collection. -/
def setStatusById (store : List Booking) (id : Nat) (status : String) :
    Option (Booking × List Booking) :=
  match store with
  | [] => none
  | b :: rest =>
    if b.id = id then
      some ({ b with status := status }, { b with status := status } :: rest)
    else
      match setStatusById rest id status with
      | none => none
      | some (b', rest') => some (b', b :: rest')

/-- The `PATCH /api/bookings/:id` handler (lines 174–197) as a pure
function: reject unless the requested status is in
`['pending', 'approved', 'rejected']` (line 178); then
`findByIdAndUpdate`, returning 404 when no booking has the id. -/
def updateStatus (store : List Booking) (id : Nat) (status : String) :
    PatchResult × List Booking :=
  if ["pending", "approved", "rejected"].contains status then
    match setStatusById store id status with
    | none => (.notFound, store)
    | some (b, store') => (.ok b, store')
  else
    (.invalidStatus, store)

/-- Outcome of `DELETE /api/bookings/:id` (lines 200–211). -/
inductive DeleteResult where
  | notFound
  | deleted
  deriving Repr, DecidableEq

/-- `findByIdAndDelete`: remove the first booking with the given id. -/
def removeById (store : List Booking) (id : Nat) :
    Option (List Booking) :=
  match store with
  | [] => none
  | b :: rest =>
    if b.id = id then some rest
    else
      match removeById rest id with
      | none => none
      | some rest' => some (b :: rest')

/-- The `DELETE /api/bookings/:id` handler (lines 200–211). -/
def deleteBooking (store : List Booking) (id : Nat) :
    DeleteResult × List Booking :=
  match removeById store id with
  | none => (.notFound, store)
  | some store' => (.deleted, store')

/-- `GET /api/bookings` (lines 89–97):
`Booking.find().sort({ createdAt: -1 })` — every booking, ordered by
`createdAt` descending. -/
def getAllBookings (store : List Booking) : List Booking :=
  store.mergeSort (fun a b => decide (a.createdAt ≥ b.createdAt))

/-- `GET /api/bookings/approved` (lines 100–108):
`Booking.find({ status: 'approved' }).sort({ bookingTime: 1 })` — approved
bookings only, ordered by `bookingTime` ascending. -/
def getApprovedBookings (store : List Booking) : List Booking :=
  (store.filter (fun b => b.status == "approved")).mergeSort
    (fun a b => decide (a.bookingTime ≤ b.bookingTime))

/-! ## Shared lemmas -/

/-- The Mongo conflict filter, read as a proposition. -/
theorem conflictsWith_eq_true {c d : Int} {b : Booking} :
    conflictsWith c d b = true ↔
      b.status = "approved" ∧ b.bookingTime ≤ d ∧ c ≤ b.returnTime := by
  simp [conflictsWith, ge_iff_le, and_assoc]

/-! ## Concrete fixtures for witnesses -/

/-- A concrete date parser exercising the handlers: `"t10" ↦ 10` and so on,
every other string an invalid date. -/
def parseEx (s : String) : Option Int :=
  if s = "t9" then some 9
  else if s = "t10" then some 10
  else if s = "t11" then some 11
  else if s = "t12" then some 12
  else none

/-- An approved booking over `[10, 11]`. -/
def approvedEx : Booking :=
  { id := 0, name := "alice", purpose := "errand", bookingTime := 10,
    returnTime := 11, status := "approved", createdAt := 0 }

/-- A pending booking over `[10, 11]`. -/
def pendingEx : Booking :=
  { id := 0, name := "alice", purpose := "errand", bookingTime := 10,
    returnTime := 11, status := "pending", createdAt := 0 }

/-! ## Claims -/

/-- C1.  With both dates parseable and in strict order, booking creation
rejects with a Conflict naming the offending interval's bounds iff some
stored approved interval `[a, b]` satisfies `a ≤ d ∧ b ≥ c` (closed-interval
overlap, endpoint touch included); with no approved overlap the candidate is
accepted and persisted. -/
theorem create_conflict_iff_approved_overlap
    (parse : String → Option Int) (name purpose bt rt : String)
    (stF : Option String) (store : List Booking) (newId : Nat)
    (now c d : Int)
    (hn : name ≠ "") (hp : purpose ≠ "") (hbt : bt ≠ "") (hrt : rt ≠ "")
    (hc : parse bt = some c) (hd : parse rt = some d) (hcd : c < d) :
    ((∃ b ∈ store, b.status = "approved" ∧ b.bookingTime ≤ d ∧ c ≤ b.returnTime) ↔
      ∃ b ∈ store, b.status = "approved" ∧ b.bookingTime ≤ d ∧ c ≤ b.returnTime ∧
        (createBooking parse ⟨some name, some purpose, some bt, some rt, stF⟩
            store newId now).1 = .conflict b.bookingTime b.returnTime) ∧
    ((¬ ∃ b ∈ store, b.status = "approved" ∧ b.bookingTime ≤ d ∧ c ≤ b.returnTime) →
      createBooking parse ⟨some name, some purpose, some bt, some rt, stF⟩
          store newId now =
        (.created ⟨newId, name, purpose, c, d, "pending", now⟩,
         store ++ [⟨newId, name, purpose, c, d, "pending", now⟩])) := by
  have htr : (truthy (some name) && truthy (some purpose) &&
      truthy (some bt) && truthy (some rt)) = true := by
    simp [truthy, hn, hp, hbt, hrt]
  unfold createBooking
  rw [if_pos htr]
  simp only [Option.getD_some, hc, hd]
  rw [if_neg (not_le.mpr hcd)]
  rcases hfind : store.find? (conflictsWith c d) with _ | b
  · rw [List.find?_eq_none] at hfind
    constructor
    · constructor
      · rintro ⟨b, hmem, hb⟩
        exact absurd (conflictsWith_eq_true.mpr hb) (hfind b hmem)
      · rintro ⟨b, hmem, h1, h2, h3, _⟩
        exact ⟨b, hmem, h1, h2, h3⟩
    · intro _
      rfl
  · have hmem := List.mem_of_find?_eq_some hfind
    have hb := conflictsWith_eq_true.mp (List.find?_some hfind)
    constructor
    · constructor
      · intro _
        exact ⟨b, hmem, hb.1, hb.2.1, hb.2.2, rfl⟩
      · rintro ⟨b', hmem', h1, h2, h3, _⟩
        exact ⟨b', hmem', h1, h2, h3⟩
    · intro hno
      exact absurd ⟨b, hmem, hb⟩ hno

/-- Witness for C1: with approved `[10, 11]` stored, the candidate
`[11, 12]` (touching endpoint, scenario B of the spec) is rejected with a
Conflict naming `[10, 11]`. -/
theorem create_conflict_iff_approved_overlap_witness :
    ∃ b ∈ [approvedEx], b.status = "approved" ∧ b.bookingTime ≤ 12 ∧
      11 ≤ b.returnTime ∧
      (createBooking parseEx ⟨some "bob", some "trip", some "t11", some "t12", none⟩
          [approvedEx] 1 99).1 = .conflict b.bookingTime b.returnTime :=
  (create_conflict_iff_approved_overlap parseEx "bob" "trip" "t11" "t12" none
      [approvedEx] 1 99 11 12 (by decide) (by decide) (by decide) (by decide)
      rfl rfl (by decide)).1.mp
    ⟨approvedEx, by simp [approvedEx], by decide, by decide, by decide⟩

/-- C2.  Pending and rejected bookings never cause a Conflict rejection:
whenever creation rejects with a Conflict, the cited interval belongs to a
stored booking with status `approved`; consequently a store in which no
booking is approved never produces a Conflict, however its intervals
overlap the candidate. -/
theorem conflict_cause_is_approved
    (parse : String → Option Int) (req : BookingRequest)
    (store : List Booking) (newId : Nat) (now : Int) :
    (∀ a₀ b₀, (createBooking parse req store newId now).1 = .conflict a₀ b₀ →
      ∃ b ∈ store, b.status = "approved" ∧ b.bookingTime = a₀ ∧ b.returnTime = b₀) ∧
    ((∀ b ∈ store, b.status ≠ "approved") →
      ∀ a₀ b₀, (createBooking parse req store newId now).1 ≠ .conflict a₀ b₀) := by
  have h1 : ∀ a₀ b₀, (createBooking parse req store newId now).1 = .conflict a₀ b₀ →
      ∃ b ∈ store, b.status = "approved" ∧ b.bookingTime = a₀ ∧ b.returnTime = b₀ := by
    intro a₀ b₀ hres
    unfold createBooking at hres
    split at hres
    · split at hres
      · split at hres
        · exact absurd hres (by simp)
        · split at hres
          next cb heq =>
            have hmem := List.mem_of_find?_eq_some heq
            have hcb := conflictsWith_eq_true.mp (List.find?_some heq)
            simp only [CreateResult.conflict.injEq] at hres
            exact ⟨cb, hmem, hcb.1, hres.1, hres.2⟩
          next heq => exact absurd hres (by simp)
      · exact absurd hres (by simp)
    · exact absurd hres (by simp)
  refine ⟨h1, fun hall a₀ b₀ hres => ?_⟩
  obtain ⟨b, hmem, happ, _, _⟩ := h1 a₀ b₀ hres
  exact hall b hmem happ

/-- Witness for C2: a store holding only a pending booking over `[10, 11]`
never yields a Conflict, even for the fully-overlapping candidate
`[10, 11]`. -/
theorem conflict_cause_is_approved_witness :
    (createBooking parseEx
        ⟨some "bob", some "trip", some "t10", some "t11", none⟩
        [pendingEx] 1 99).1 ≠ .conflict 10 11 :=
  (conflict_cause_is_approved parseEx
      ⟨some "bob", some "trip", some "t10", some "t11", none⟩
      [pendingEx] 1 99).2 (by decide) 10 11

/-- C3.  When both dates parse but the parsed `bookingTime` is greater than
or equal to the parsed `returnTime`, creation rejects with InvalidOrder and
leaves the store untouched, regardless of what bookings exist: the conflict
scan is never reached. -/
theorem create_rejects_unordered
    (parse : String → Option Int) (name purpose bt rt : String)
    (stF : Option String) (store : List Booking) (newId : Nat)
    (now c d : Int)
    (hn : name ≠ "") (hp : purpose ≠ "") (hbt : bt ≠ "") (hrt : rt ≠ "")
    (hc : parse bt = some c) (hd : parse rt = some d) (hcd : c ≥ d) :
    createBooking parse ⟨some name, some purpose, some bt, some rt, stF⟩
        store newId now = (.invalidOrder, store) := by
  have htr : (truthy (some name) && truthy (some purpose) &&
      truthy (some bt) && truthy (some rt)) = true := by
    simp [truthy, hn, hp, hbt, hrt]
  unfold createBooking
  rw [if_pos htr]
  simp only [Option.getD_some, hc, hd]
  rw [if_pos hcd]

/-- Witness for C3: scenario D — `bookingTime ↦ 10`, `returnTime ↦ 9` is
rejected with InvalidOrder even though an approved booking is stored. -/
theorem create_rejects_unordered_witness :
    createBooking parseEx ⟨some "bob", some "trip", some "t10", some "t9", none⟩
        [approvedEx] 1 99 = (.invalidOrder, [approvedEx]) :=
  create_rejects_unordered parseEx "bob" "trip" "t10" "t9" none [approvedEx] 1 99
    10 9 (by decide) (by decide) (by decide) (by decide) rfl rfl (by decide)

/-- C4.  When all four fields are present (truthy) but `bookingTime` or
`returnTime` fails to parse as a valid instant, creation rejects with
InvalidDate and leaves the store untouched, regardless of existing
bookings. -/
theorem create_rejects_invalid_date
    (parse : String → Option Int) (name purpose bt rt : String)
    (stF : Option String) (store : List Booking) (newId : Nat) (now : Int)
    (hn : name ≠ "") (hp : purpose ≠ "") (hbt : bt ≠ "") (hrt : rt ≠ "")
    (hbad : parse bt = none ∨ parse rt = none) :
    createBooking parse ⟨some name, some purpose, some bt, some rt, stF⟩
        store newId now = (.invalidDate, store) := by
  have htr : (truthy (some name) && truthy (some purpose) &&
      truthy (some bt) && truthy (some rt)) = true := by
    simp [truthy, hn, hp, hbt, hrt]
  unfold createBooking
  rw [if_pos htr]
  simp only [Option.getD_some]
  cases h1 : parse bt <;> cases h2 : parse rt <;>
    first
      | rfl
      | (rcases hbad with h | h <;> simp_all)

/-- Witness for C4: an unparsable `bookingTime` string is rejected with
InvalidDate even though an approved booking is stored. -/
theorem create_rejects_invalid_date_witness :
    createBooking parseEx
        ⟨some "bob", some "trip", some "garbage", some "t11", none⟩
        [approvedEx] 1 99 = (.invalidDate, [approvedEx]) :=
  create_rejects_invalid_date parseEx "bob" "trip" "garbage" "t11" none
    [approvedEx] 1 99 (by decide) (by decide) (by decide) (by decide)
    (Or.inl rfl)

/-- Successful `findByIdAndUpdate` decomposed: the store splits around the
first booking carrying the id, the returned document is that booking with
only its status replaced, and the rest of the store is untouched. -/
theorem setStatusById_spec (id : Nat) (s : String) :
    ∀ (store : List Booking) (b' : Booking) (store' : List Booking),
      setStatusById store id s = some (b', store') →
      ∃ l1 b l2, store = l1 ++ b :: l2 ∧ (∀ x ∈ l1, x.id ≠ id) ∧ b.id = id ∧
        b' = { b with status := s } ∧ store' = l1 ++ b' :: l2 := by
  intro store
  induction store with
  | nil => intro b' store' h; simp [setStatusById] at h
  | cons b rest ih =>
    intro b' store' h
    unfold setStatusById at h
    by_cases hid : b.id = id
    · rw [if_pos hid] at h
      simp only [Option.some.injEq, Prod.mk.injEq] at h
      exact ⟨[], b, rest, rfl, by simp, hid, h.1.symm, by simp [← h.2, ← h.1]⟩
    · rw [if_neg hid] at h
      rcases hrec : setStatusById rest id s with _ | ⟨pb, prest⟩ <;> rw [hrec] at h
      · simp at h
      · simp only [Option.some.injEq, Prod.mk.injEq] at h
        obtain ⟨l1, bb, l2, hsplit, hnotin, hbb, hpb, hprest⟩ :=
          ih pb prest hrec
        refine ⟨b :: l1, bb, l2, by simp [hsplit], ?_, hbb, h.1.symm ▸ hpb, ?_⟩
        · intro x hx
          rcases List.mem_cons.mp hx with hx | hx
          · exact hx ▸ hid
          · exact hnotin x hx
        · rw [← h.2, hprest, ← h.1]
          rfl

/-- `findByIdAndUpdate` succeeds whenever some stored booking carries the
id, whatever its current status, and the returned document carries the
requested status. -/
theorem setStatusById_isSome (id : Nat) (s : String) :
    ∀ (store : List Booking), (∃ b ∈ store, b.id = id) →
      ∃ b' store', setStatusById store id s = some (b', store') ∧
        b'.status = s := by
  intro store
  induction store with
  | nil => rintro ⟨b, hb, _⟩; exact absurd hb (List.not_mem_nil b)
  | cons b rest ih =>
    rintro ⟨b₀, hb₀, hid₀⟩
    by_cases hid : b.id = id
    · exact ⟨{ b with status := s }, { b with status := s } :: rest,
        by unfold setStatusById; rw [if_pos hid], rfl⟩
    · rcases List.mem_cons.mp hb₀ with hb₀ | hb₀
      · exact absurd (hb₀ ▸ hid₀) hid
      · obtain ⟨b', rest', hrec, hst⟩ := ih ⟨b₀, hb₀, hid₀⟩
        exact ⟨b', b :: rest', by unfold setStatusById; rw [if_neg hid, hrec],
          hst⟩

/-- C5.  The status transition fails with InvalidStatus iff the requested
status lies outside `{pending, approved, rejected}`; every string in the
set passes the whitelist check, whatever the store and id. -/
theorem patch_invalid_status_iff (store : List Booking) (id : Nat)
    (s : String) :
    (updateStatus store id s).1 = .invalidStatus ↔
      ¬(s = "pending" ∨ s = "approved" ∨ s = "rejected") := by
  unfold updateStatus
  by_cases hmem : (["pending", "approved", "rejected"].contains s) = true
  · have hs : s = "pending" ∨ s = "approved" ∨ s = "rejected" := by
      simpa using hmem
    rw [if_pos hmem]
    rcases h : setStatusById store id s with _ | ⟨b', store'⟩ <;> simp [hs]
  · have hs : ¬(s = "pending" ∨ s = "approved" ∨ s = "rejected") := by
      simpa using hmem
    rw [if_neg hmem]
    simp [hs]

/-- C6.  For any stored booking and any status in the whitelist, the
transition succeeds no matter the booking's current status and no matter
what other bookings exist: no conflict re-validation is performed, so even
a transition creating two overlapping approved bookings is not rejected. -/
theorem patch_any_status_succeeds (store : List Booking) (id : Nat)
    (s : String)
    (hs : s = "pending" ∨ s = "approved" ∨ s = "rejected")
    (hex : ∃ b ∈ store, b.id = id) :
    ∃ b' store', updateStatus store id s = (.ok b', store') ∧
      b'.status = s := by
  have hc : (["pending", "approved", "rejected"].contains s) = true := by
    simpa using hs
  obtain ⟨b', store', hset, hst⟩ := setStatusById_isSome id s store hex
  refine ⟨b', store', ?_, hst⟩
  unfold updateStatus
  rw [if_pos hc, hset]

/-- Witness for C6: re-approving the rejected booking id 1, whose interval
`[10, 11]` coincides with the stored approved booking id 0, succeeds — the
overlap is not re-checked. -/
theorem patch_any_status_succeeds_witness :
    ∃ b' store',
      updateStatus [approvedEx,
          { pendingEx with id := 1, status := "rejected" }] 1 "approved" =
        (.ok b', store') ∧ b'.status = "approved" :=
  patch_any_status_succeeds
    [approvedEx, { pendingEx with id := 1, status := "rejected" }] 1
    "approved" (by simp)
    ⟨{ pendingEx with id := 1, status := "rejected" }, by simp, rfl⟩

/-- C9.  A successful status transition changes only the status of the
targeted booking: the returned document agrees with the stored one on id,
name, purpose, bookingTime, returnTime and createdAt, and every other
booking in the store is byte-for-byte unchanged. -/
theorem patch_frame (store : List Booking) (id : Nat) (s : String)
    (b' : Booking) (store' : List Booking)
    (h : updateStatus store id s = (.ok b', store')) :
    ∃ l1 b l2, store = l1 ++ b :: l2 ∧ (∀ x ∈ l1, x.id ≠ id) ∧ b.id = id ∧
      store' = l1 ++ b' :: l2 ∧
      b'.id = b.id ∧ b'.name = b.name ∧ b'.purpose = b.purpose ∧
      b'.bookingTime = b.bookingTime ∧ b'.returnTime = b.returnTime ∧
      b'.createdAt = b.createdAt ∧ b'.status = s := by
  unfold updateStatus at h
  by_cases hc : (["pending", "approved", "rejected"].contains s) = true
  · rw [if_pos hc] at h
    rcases hset : setStatusById store id s with _ | ⟨pb, pstore⟩ <;>
      rw [hset] at h
    · simp at h
    · simp only [Prod.mk.injEq, PatchResult.ok.injEq] at h
      obtain ⟨l1, b, l2, hsplit, hnotin, hid, hpb, hpstore⟩ :=
        setStatusById_spec id s store pb pstore hset
      refine ⟨l1, b, l2, hsplit, hnotin, hid, ?_, ?_⟩
      · rw [← h.2, hpstore, h.1]
      · subst hpb
        simp [← h.1]
  · rw [if_neg hc] at h
    simp at h

/-- Witness for C9: transitioning booking id 0 to rejected in a two-booking
store leaves every other field and the other booking intact. -/
theorem patch_frame_witness :
    ∃ l1 b l2,
      ([approvedEx, { pendingEx with id := 1 }] : List Booking) =
          l1 ++ b :: l2 ∧
        (∀ x ∈ l1, x.id ≠ 0) ∧ b.id = 0 ∧
        [{ approvedEx with status := "rejected" },
            { pendingEx with id := 1 }] =
          l1 ++ { approvedEx with status := "rejected" } :: l2 ∧
        ({ approvedEx with status := "rejected" } : Booking).id = b.id ∧
        ({ approvedEx with status := "rejected" } : Booking).name = b.name ∧
        ({ approvedEx with status := "rejected" } : Booking).purpose =
          b.purpose ∧
        ({ approvedEx with status := "rejected" } : Booking).bookingTime =
          b.bookingTime ∧
        ({ approvedEx with status := "rejected" } : Booking).returnTime =
          b.returnTime ∧
        ({ approvedEx with status := "rejected" } : Booking).createdAt =
          b.createdAt ∧
        ({ approvedEx with status := "rejected" } : Booking).status =
          "rejected" :=
  patch_frame [approvedEx, { pendingEx with id := 1 }] 0 "rejected"
    { approvedEx with status := "rejected" }
    [{ approvedEx with status := "rejected" }, { pendingEx with id := 1 }]
    (by decide)

/-- C7.  The two retrieval views are filtered/sorted projections of the
collection: `GET /api/bookings` returns a permutation of the whole store
sorted by `createdAt` descending, and `GET /api/bookings/approved` returns
exactly the bookings with status approved (a permutation of the approved
sublist, membership-characterised), sorted by `bookingTime` ascending. -/
theorem retrieval_views_spec (store : List Booking) :
    List.Perm (getAllBookings store) store ∧
    (getAllBookings store).Pairwise
      (fun a b => b.createdAt ≤ a.createdAt) ∧
    List.Perm (getApprovedBookings store)
      (store.filter (fun b => b.status == "approved")) ∧
    (∀ b, b ∈ getApprovedBookings store ↔
      b ∈ store ∧ b.status = "approved") ∧
    (getApprovedBookings store).Pairwise
      (fun a b => a.bookingTime ≤ b.bookingTime) := by
  refine ⟨List.mergeSort_perm store _, ?_, List.mergeSort_perm _ _, ?_, ?_⟩
  · have h := @List.sorted_mergeSort Booking
      (fun a b => decide (a.createdAt ≥ b.createdAt))
      (by intro a b c hab hbc; simp only [decide_eq_true_eq] at *; omega)
      (by intro a b
          simpa using le_total b.createdAt a.createdAt)
      store
    exact h.imp (by intro a b hab; simpa using hab)
  · intro b
    rw [getApprovedBookings, List.mem_mergeSort, List.mem_filter]
    simp
  · have h := @List.sorted_mergeSort Booking
      (fun a b => decide (a.bookingTime ≤ b.bookingTime))
      (by intro a b c hab hbc; simp only [decide_eq_true_eq] at *; omega)
      (by intro a b
          simpa using le_total a.bookingTime b.bookingTime)
      (store.filter (fun b => b.status == "approved"))
    exact h.imp (by intro a b hab; simpa using hab)

/-- C8.  Every booking persisted by creation has status `"pending"`
(the schema default), whatever the request — in particular a
client-supplied `status` field is ignored, since the handler destructures
only the four known fields — and creation appends, leaving every existing
booking (and hence its status) unchanged. -/
theorem created_booking_pending
    (parse : String → Option Int) (req : BookingRequest)
    (store : List Booking) (newId : Nat) (now : Int) (b : Booking)
    (store' : List Booking)
    (h : createBooking parse req store newId now = (.created b, store')) :
    b.status = "pending" ∧ store' = store ++ [b] ∧
    ∀ s₁ s₂ : Option String,
      createBooking parse { req with status := s₁ } store newId now =
        createBooking parse { req with status := s₂ } store newId now := by
  refine ⟨?_, ?_, fun s₁ s₂ => rfl⟩ <;>
  · unfold createBooking at h
    split at h
    · split at h
      · split at h
        · simp at h
        · split at h
          · simp at h
          · simp only [Prod.mk.injEq, CreateResult.created.injEq] at h
            first
              | exact h.1.symm ▸ rfl
              | rw [← h.2, h.1]
      · simp at h
    · simp at h

/-- Witness for C8: a request that supplies `status: "approved"` still
produces a booking whose persisted status is `"pending"`. -/
theorem created_booking_pending_witness :
    createBooking parseEx
        ⟨some "bob", some "trip", some "t10", some "t11", some "approved"⟩
        [] 1 99 =
      (.created ⟨1, "bob", "trip", 10, 11, "pending", 99⟩,
       [⟨1, "bob", "trip", 10, 11, "pending", 99⟩]) ∧
    (⟨1, "bob", "trip", 10, 11, "pending", 99⟩ : Booking).status =
      "pending" :=
  ⟨by decide,
   (created_booking_pending parseEx
      ⟨some "bob", some "trip", some "t10", some "t11", some "approved"⟩
      [] 1 99 ⟨1, "bob", "trip", 10, 11, "pending", 99⟩
      [⟨1, "bob", "trip", 10, 11, "pending", 99⟩] (by decide)).1⟩

/-- Creation either persists exactly its new booking by appending, or
returns leaving the store untouched. -/
theorem createBooking_cases (parse : String → Option Int)
    (req : BookingRequest) (store : List Booking) (newId : Nat)
    (now : Int) :
    (∃ b, createBooking parse req store newId now =
      (.created b, store ++ [b])) ∨
    (createBooking parse req store newId now).2 = store := by
  unfold createBooking
  split
  · split
    · split
      · right; rfl
      · split
        · right; rfl
        · left; exact ⟨_, rfl⟩
    · right; rfl
  · right; rfl

/-- C10.  Creation is atomic on failure: whenever the handler answers with
any of the four 400 errors (missing field, invalid date, bad order,
conflict), the stored collection after the request equals the collection
before it. -/
theorem create_error_preserves_store (parse : String → Option Int)
    (req : BookingRequest) (store : List Booking) (newId : Nat) (now : Int)
    (h : (createBooking parse req store newId now).1 = .missingFields ∨
      (createBooking parse req store newId now).1 = .invalidDate ∨
      (createBooking parse req store newId now).1 = .invalidOrder ∨
      ∃ a b, (createBooking parse req store newId now).1 = .conflict a b) :
    (createBooking parse req store newId now).2 = store := by
  rcases createBooking_cases parse req store newId now with ⟨b, hb⟩ | hst
  · rw [hb] at h
    rcases h with h | h | h | ⟨a, b', h⟩ <;> simp at h
  · exact hst

/-- Witness for C10: a conflicting submission (candidate `[11, 12]`
against approved `[10, 11]`) is rejected and the store is exactly what it
was. -/
theorem create_error_preserves_store_witness :
    (createBooking parseEx
        ⟨some "bob", some "trip", some "t11", some "t12", none⟩
        [approvedEx] 1 99).2 = [approvedEx] :=
  create_error_preserves_store parseEx
    ⟨some "bob", some "trip", some "t11", some "t12", none⟩
    [approvedEx] 1 99
    (Or.inr (Or.inr (Or.inr ⟨10, 11, by decide⟩)))

end VBS
